import Mathlib

/-!
# Verification of the CrazySerialTerm serial-terminal core

Shallow embedding, in Lean 4, of the receive/send pipeline of
`CrazySerialTerm.py` and `serial_utils.py`: hex encoding and decoding,
the read-thread loop (framing, error handling), the display filter,
`disconnect`, the command history, the display-buffer capping policy,
and byte-to-text decoding.  Byte sequences are `List Nat` (each element
`< 256` where it matters), strings are Lean `String`s, and the stateful
methods become explicit state-passing functions that also return the
list of externally visible actions they perform, in order.

The file has two parts: first the definitions translated from the
source, then the theorems about them.
-/

namespace CrazySerialTerm

/-! ## Definitions: hex utilities
(`serial_utils.py` and `Terminal._prepare_data_to_send`) -/

/-- The sixteen uppercase hex digits, the characters of the Python literal
`'0123456789ABCDEF'`. -/
def hexDigitSet : List Char :=
  ['0', '1', '2', '3', '4', '5', '6', '7', '8', '9', 'A', 'B', 'C', 'D', 'E', 'F']

/-- The characters kept by `_prepare_data_to_send`'s HEX branch:
`c in '0123456789ABCDEF '` (hex digits and the space). -/
def hexFilterSet : List Char := hexDigitSet ++ [' ']

/-- Value of a hex digit, as accepted by Python's `bytes.fromhex`
(both cases); `none` on a non-hex character. -/
def hexVal? (c : Char) : Option Nat :=
  if '0' ≤ c ∧ c ≤ '9' then some (c.toNat - 48)
  else if 'A' ≤ c ∧ c ≤ 'F' then some (c.toNat - 55)
  else if 'a' ≤ c ∧ c ≤ 'f' then some (c.toNat - 87)
  else none

/-- `bytes.fromhex` on a string without separators: consecutive pairs of hex
digits become bytes; an odd trailing digit or a non-hex character is a
`ValueError`, modelled as `none`. -/
def bytesFromHex : List Char → Option (List Nat)
  | [] => some []
  | [_] => none
  | a :: b :: rest =>
    match hexVal? a, hexVal? b, bytesFromHex rest with
    | some h, some l, some t => some ((16 * h + l) :: t)
    | _, _, _ => none

/-- Rendering of one byte by Python's `f'{b:02X}'` (two uppercase hex digits;
faithful for `b < 256`, the range of a byte). -/
def byte02X (b : Nat) : String :=
  ⟨[(Nat.digitChar (b / 16 % 16)).toUpper, (Nat.digitChar (b % 16)).toUpper]⟩

/-- `serial_utils.format_data_as_hex` and the HEX display branch of
`processReceivedData`: `' '.join(f'{b:02X}' for b in data)`. -/
def format_data_as_hex (data : List Nat) : String :=
  String.intercalate " " (data.map byte02X)

/-- The cleaned hex text computed by `_prepare_data_to_send`:
`''.join(c for c in text.upper() if c in '0123456789ABCDEF ')` followed by
`.replace(' ', '')`.  Python's `str.upper()` is modelled character-wise by
`Char.toUpper` (faithful except for exotic multi-character uppercasings,
which cannot produce hex digits from the relevant inputs). -/
def cleanedHex (text : String) : List Char :=
  ((text.toList.map Char.toUpper).filter (· ∈ hexFilterSet)).filter (· ≠ ' ')

/-- The two send formats offered by `formatSelect`. -/
inductive SendFormat
  | ascii
  | hex
deriving DecidableEq

/-- UTF-8 encoding of one character. -/
def charUtf8 (c : Char) : List Nat :=
  let n := c.toNat
  if n < 0x80 then [n]
  else if n < 0x800 then [0xC0 + n / 64, 0x80 + n % 64]
  else if n < 0x10000 then [0xE0 + n / 4096, 0x80 + n / 64 % 64, 0x80 + n % 64]
  else [0xF0 + n / 262144, 0x80 + n / 4096 % 64, 0x80 + n / 64 % 64, 0x80 + n % 64]

/-- UTF-8 encoding of a string, as Python's `text.encode('utf-8')`. -/
def utf8Bytes (s : String) : List Nat := s.toList.flatMap charUtf8

/-- The warning line emitted on an odd number of hex digits. -/
def oddHexWarning : String :=
  "[Avertissement] Nombre impair de caractères HEX, ajout d\x27un 0\n"

/-- `Terminal._prepare_data_to_send(text, format_type, eol)`: returns the
warning lines it shows and either the bytes to transmit or the message of the
`ValueError` it raises.  The HEX branch cleans the input, raises on an empty
result, pads (with a warning) on an odd digit count, then decodes pairs and
appends the EOL bytes. -/
def prepare_data_to_send (text : String) (format : SendFormat) (eol : List Nat) :
    List String × Except String (List Nat) :=
  match format with
  | .ascii => ([], .ok (utf8Bytes text ++ eol))
  | .hex =>
    let hexText := cleanedHex text
    if hexText = [] then ([], .error "Aucune donnée hexadécimale valide")
    else if hexText.length % 2 ≠ 0 then
      match bytesFromHex (hexText ++ ['0']) with
      | some bs => ([oddHexWarning], .ok (bs ++ eol))
      | none => ([oddHexWarning], .error "Format hexadécimal invalide")
    else
      match bytesFromHex hexText with
      | some bs => ([], .ok (bs ++ eol))
      | none => ([], .error "Format hexadécimal invalide")

/-- The cleaned hex digits padded to even length, the digit sequence the
claim about the hex round trip compares against. -/
def paddedHex (text : String) : List Char :=
  if (cleanedHex text).length % 2 = 1 then cleanedHex text ++ ['0']
  else cleanedHex text

/-- Grouping of a digit sequence into two-character strings, the shape of a
hex rendering with one byte per pair. -/
def pairStrings : List Char → List String
  | [] => []
  | [a] => [⟨[a]⟩]
  | a :: b :: rest => ⟨[a, b]⟩ :: pairStrings rest

/-! ## Definitions: the reader thread loop (`Terminal.readData` and
`Terminal._handle_serial_error`) -/

/-- `Terminal.MAX_RX_BUFFER_SIZE` (intended cap of the receive ring buffer). -/
def MAX_RX_BUFFER_SIZE : Nat := 50000

/-- The per-iteration reader-thread state.  `rx_buffer` is `some` only when
the object actually has an `rx_buffer` attribute; `Terminal.__init__` (and
the rest of the class) never creates one, so the program runs with `none`
and `self.rx_buffer.extend(data)` raises `AttributeError`. -/
structure ReadState where
  rx_buffer : Option (List Nat)
  temp : List Nat
  lastTime : Nat
  errorCount : Nat
deriving DecidableEq

/-- Externally visible actions of one loop iteration: a queued
`appendFormattedText('[Erreur] …', red)`, a queued `handleDisconnect`, or a
`processReceivedData(bytes(temp_buffer))` call. -/
inductive RAction
  | errorLine (msg : String)
  | disconnectRequest
  | frame (data : List Nat)
deriving DecidableEq

/-- Result of one loop iteration: the new state, the actions performed in
order, and whether the loop keeps running (`false` models `break`). -/
structure StepResult where
  state : ReadState
  actions : List RAction
  running : Bool
deriving DecidableEq

/-- The event the OS delivers to one loop iteration: `in_waiting` raised,
`in_waiting > 0` and `read` returned `data`, `read` raised
(`SerialException`/`IOError`/`OSError`), or `in_waiting == 0`. -/
inductive ReadEvent
  | inWaitingErr
  | dataAvail (data : List Nat)
  | readErr
  | noData
deriving DecidableEq

/-- `max_errors = 5` in `readData`. -/
def maxErrors : Nat := 5

/-- `timeout_seconds = 0.1` in `readData`, in milliseconds. -/
def frameTimeoutMs : Nat := 100

/-- `str(e)` for the `AttributeError` raised at
`self.rx_buffer.extend(data)`. -/
def attributeErrorMsg : String :=
  "\x27Terminal\x27 object has no attribute \x27rx_buffer\x27"

/-- `Terminal._handle_serial_error(msg)`: appends the visible line
`'[Erreur] ' + msg + '\n'` and then unconditionally queues
`handleDisconnect` — every reported error also requests a disconnect. -/
def handle_serial_error (msg : String) : List RAction :=
  [.errorLine ("[Erreur] " ++ msg ++ "\n"), .disconnectRequest]

/-- The intended `deque(maxlen=MAX_RX_BUFFER_SIZE)` extension: oldest bytes
evicted past the cap.  Modelled from the code's comments (the class constant
and the remark that the deque purges automatically); the attribute itself is
never created, so this branch is unreachable in the program as shipped. -/
def dequeExtend (buf data : List Nat) : List Nat :=
  (buf ++ data).drop ((buf ++ data).length - MAX_RX_BUFFER_SIZE)

/-- One iteration of the `while` body of `Terminal.readData`, given the
current time `now` in milliseconds. -/
def readStep (s : ReadState) (now : Nat) (e : ReadEvent) : StepResult :=
  match e with
  | .inWaitingErr =>
    { state := s,
      actions := handle_serial_error "Port déconnecté ou inaccessible",
      running := false }
  | .dataAvail data =>
    if data = [] then
      { state := { s with errorCount := 0 }, actions := [], running := true }
    else
      match s.rx_buffer with
      | none =>
        let ec := s.errorCount + 1
        if ec ≥ maxErrors then
          { state := { s with errorCount := ec },
            actions := handle_serial_error
              ("Arrêt après " ++ toString maxErrors ++ " exceptions: "
                ++ attributeErrorMsg),
            running := false }
        else
          { state := { s with errorCount := ec },
            actions := handle_serial_error
              ("Exception inattendue: " ++ attributeErrorMsg),
            running := true }
      | some buf =>
        let buf2 := dequeExtend buf data
        let temp2 := s.temp ++ data
        if 10 ∈ temp2 ∨ s.lastTime + frameTimeoutMs < now then
          { state := ⟨some buf2, [], now, 0⟩,
            actions := [.frame temp2], running := true }
        else
          { state := ⟨some buf2, temp2, s.lastTime, 0⟩,
            actions := [], running := true }
  | .readErr =>
    let ec := s.errorCount + 1
    if ec ≥ maxErrors then
      { state := { s with errorCount := ec },
        actions := handle_serial_error
          ("Arrêt après " ++ toString maxErrors ++ " erreurs consécutives"),
        running := false }
    else
      { state := { s with errorCount := ec },
        actions := handle_serial_error "Erreur lors de la lecture des données",
        running := true }
  | .noData =>
    if s.temp ≠ [] ∧ s.lastTime + frameTimeoutMs < now then
      { state := { s with temp := [], lastTime := now },
        actions := [.frame s.temp], running := true }
    else
      { state := s, actions := [], running := true }

/-- The reader state at thread start: `__init__` created no `rx_buffer`
attribute, `temp_buffer = bytearray()`, `last_time` is the start instant,
`error_count = 0`. -/
def initReadState (start : Nat) : ReadState :=
  ⟨none, [], start, 0⟩

/-! ## Definitions: command history (`Terminal.sendData`, lines 1218–1223) -/

/-- One history update performed by `sendData`:
append `text` if absent, then `pop(0)` when the length exceeds 100. -/
def historyStep (hist : List String) (text : String) : List String :=
  if text ∈ hist then hist
  else if (hist ++ [text]).length > 100 then (hist ++ [text]).tail
  else hist ++ [text]

/-- The suffix of the last `n` elements (all of `xs` when `xs` is shorter). -/
def lastN (n : Nat) (xs : List String) : List String :=
  xs.drop (xs.length - n)

/-- 150 pairwise-distinct command strings used as a concrete run. -/
def cmds150 : List String := (List.range 150).map (fun n => Nat.repr n)

/-! ## Definitions: byte-to-text decoding (`Terminal._decode_data`)

CPython's UTF-8 codec consults the error handler on each ill-formed
maximal subpart: `errors='strict'` raises `UnicodeDecodeError`,
`errors='replace'` substitutes one U+FFFD and resumes.  The decoder below
is parameterised on that choice so that the fallback structure of
`_decode_data` can be modelled as written. -/

/-- U+FFFD REPLACEMENT CHARACTER. -/
def replacementChar : Char := Char.ofNat 0xFFFD

/-- What the error handler yields for one ill-formed maximal subpart. -/
def utf8Fail (strict : Bool) : Except Unit Char :=
  if strict then .error () else .ok replacementChar

/-- Whether `b` is a UTF-8 continuation byte (`0x80–0xBF`). -/
def isCont (b : Nat) : Bool := 128 ≤ b && b ≤ 191

/-- Range of the first continuation byte after a three-byte lead
(`E0` forbids overlong forms, `ED` forbids surrogates). -/
def cont3ok (b c1 : Nat) : Bool :=
  (if b = 0xE0 then 0xA0 else 0x80) ≤ c1 &&
    c1 ≤ (if b = 0xED then 0x9F else 0xBF)

/-- Range of the first continuation byte after a four-byte lead
(`F0` forbids overlong forms, `F4` caps at U+10FFFF). -/
def cont4ok (b c1 : Nat) : Bool :=
  (if b = 0xF0 then 0x90 else 0x80) ≤ c1 &&
    c1 ≤ (if b = 0xF4 then 0x8F else 0xBF)

/-- Decode one scalar value from lead byte `b` and the following bytes
`rest` (RFC 3629 ranges, as CPython enforces them): the result is the
decoded character — or the error handler's answer on an ill-formed maximal
subpart — together with how many bytes of `rest` were consumed. -/
def utf8Next (strict : Bool) (b : Nat) (rest : List Nat) :
    Except Unit Char × Nat :=
  if b < 0x80 then (.ok (Char.ofNat b), 0)
  else if b < 0xC2 then (utf8Fail strict, 0)
  else if b < 0xE0 then
    match rest with
    | [] => (utf8Fail strict, 0)
    | c1 :: _ =>
      if isCont c1 then (.ok (Char.ofNat ((b - 0xC0) * 64 + (c1 - 0x80))), 1)
      else (utf8Fail strict, 0)
  else if b < 0xF0 then
    match rest with
    | [] => (utf8Fail strict, 0)
    | c1 :: r1 =>
      if cont3ok b c1 then
        match r1 with
        | [] => (utf8Fail strict, 1)
        | c2 :: _ =>
          if isCont c2 then
            (.ok (Char.ofNat ((b - 0xE0) * 4096 + (c1 - 0x80) * 64 + (c2 - 0x80))), 2)
          else (utf8Fail strict, 1)
      else (utf8Fail strict, 0)
  else if b < 0xF5 then
    match rest with
    | [] => (utf8Fail strict, 0)
    | c1 :: r1 =>
      if cont4ok b c1 then
        match r1 with
        | [] => (utf8Fail strict, 1)
        | c2 :: r2 =>
          if isCont c2 then
            match r2 with
            | [] => (utf8Fail strict, 2)
            | c3 :: _ =>
              if isCont c3 then
                (.ok (Char.ofNat ((b - 0xF0) * 262144 + (c1 - 0x80) * 4096
                  + (c2 - 0x80) * 64 + (c3 - 0x80))), 3)
              else (utf8Fail strict, 2)
          else (utf8Fail strict, 1)
      else (utf8Fail strict, 0)
  else (utf8Fail strict, 0)

/-- The decode loop, structurally recursive on a fuel that bounds the number
of scalar values (one byte is consumed per step at least, so the input
length suffices; the fuel-exhausted arm is proved unreachable below). -/
def utf8DecodeFuel (strict : Bool) : Nat → List Nat → Except Unit (List Char)
  | _, [] => .ok []
  | 0, _ :: _ => .error ()
  | fuel + 1, b :: rest =>
    match utf8Next strict b rest with
    | (.error e, _) => .error e
    | (.ok c, k) =>
      match utf8DecodeFuel strict fuel (rest.drop k) with
      | .error e => .error e
      | .ok cs => .ok (c :: cs)

/-- `data.decode('utf-8', errors='replace')`, exception-transparent: `.ok`
carries the decoded characters, `.error` a raised `UnicodeDecodeError`. -/
def utf8DecodeReplace (data : List Nat) : Except Unit (List Char) :=
  utf8DecodeFuel false data.length data

/-- `data.decode('latin-1', errors='replace')`: each byte maps to the code
point of the same value. -/
def latin1Decode (data : List Nat) : List Char :=
  data.map (fun b => Char.ofNat b)

/-- `Terminal._decode_data`: try the UTF-8 replacement decode, fall back to
Latin-1 on `UnicodeDecodeError`. -/
def decode_data (data : List Nat) : String :=
  match utf8DecodeReplace data with
  | .ok cs => ⟨cs⟩
  | .error _ => ⟨latin1Decode data⟩

/-! ## Definitions: rendering and the display filter
(`Terminal.processReceivedData`, `_add_timestamp`, `_apply_filter`) -/

/-- The three display formats of `displayFormat`
(`'ASCII'`, `'HEX'`, `'Les deux'`). -/
inductive DisplayFormat
  | ascii
  | hex
  | both
deriving DecidableEq

/-- `Terminal._add_timestamp`: prefix the rendered text with the current
time, and with the inter-frame delay when that option is on and a previous
receive time exists.  The formatted time strings are parameters (`nowStr`
for `%H:%M:%S.%f` truncated to ms, `deltaStr` for `{ms:.1f}`). -/
def add_timestamp (tsEnabled showTiming hasLast : Bool)
    (nowStr deltaStr text : String) : String :=
  if !tsEnabled then text
  else if showTiming && hasLast then
    "[" ++ nowStr ++ " +" ++ deltaStr ++ "ms] " ++ text
  else "[" ++ nowStr ++ "] " ++ text

/-- `Terminal._apply_filter`: pass everything when the filter is off or the
pattern empty; otherwise test the rendered text with `re.search`, treating a
pattern that fails to compile (`re.error`, modelled as `none` from the
`research` oracle) as "display it". -/
def apply_filter (enabled : Bool) (pattern : String)
    (research : String → String → Option Bool) (text : String) : Bool :=
  if !enabled || pattern = "" then true
  else
    match research pattern text with
    | some b => b
    | none => true

/-- The UI-visible effects of `processReceivedData`: the status-bar counter
update, a queued display append, a log-file write. -/
inductive PAction
  | statusUpdate
  | display (text : String)
  | logWrite (text : String)
deriving DecidableEq

/-- The settings `processReceivedData` reads. -/
structure RecvConfig where
  displayFormat : DisplayFormat
  tsEnabled : Bool
  showTiming : Bool
  hasLast : Bool
  nowStr : String
  deltaStr : String
  filterEnabled : Bool
  pattern : String
  logActive : Bool

/-- The display text `processReceivedData` builds for a frame: format the
bytes per the display format, then add the timestamp prefix. -/
def renderedText (cfg : RecvConfig) (data : List Nat) : String :=
  let base :=
    match cfg.displayFormat with
    | .ascii => decode_data data
    | .hex => format_data_as_hex data
    | .both => decode_data data ++ " [" ++ format_data_as_hex data ++ "]"
  add_timestamp cfg.tsEnabled cfg.showTiming cfg.hasLast cfg.nowStr cfg.deltaStr base

/-- `Terminal.processReceivedData(data)`: update the RX counter, render,
filter, then append to the display and to the log file when active.  A
filtered-out frame returns right after the counter update. -/
def processReceivedData (cfg : RecvConfig)
    (research : String → String → Option Bool) (data : List Nat) : List PAction :=
  let t := renderedText cfg data
  if !apply_filter cfg.filterEnabled cfg.pattern research t then
    [.statusUpdate]
  else
    [.statusUpdate, .display t] ++ (if cfg.logActive then [.logWrite t] else [])

/-! ## Definitions: `Terminal.disconnect` -/

/-- The session state `disconnect` manipulates: the port (`some is_open`
when a `serial_port` object exists), the reader-thread handle, the log file
and the repeat timer. -/
structure ConnState where
  serial_port : Option Bool
  read_thread : Bool
  logActive : Bool
  repeatActive : Bool
deriving DecidableEq

/-- The externally visible effects of `disconnect`. -/
inductive DAction
  | uiLine (text : String)
  | logError (msg : String)
  | setButton (label : String)
  | statusMessage (msg : String)
deriving DecidableEq

/-- `Terminal.stopLogging()`: when a log file is active, close it and
report with a visible "Enregistrement terminé" line and a status message
(the menu-text update is not modelled); the `finally` nulls `log_file`.
A no-op when no log is active. -/
def stopLoggingActs (logActive : Bool) : List DAction :=
  if logActive then
    [.uiLine "[Système] Enregistrement terminé\n",
     .statusMessage "Enregistrement terminé"]
  else []

/-- `Terminal.disconnect()`: with a session, stop the reader, close the
port (exceptions from `close()` are caught and only logged; the `finally`
nulls `serial_port` and `read_thread` regardless), stop logging (which
itself reports when a log was active), stop the repeat timer, and report;
with no session, only report "no active connection". `closeRaises` says
whether `close()` raises. -/
def disconnect (closeRaises : Bool) (s : ConnState) : ConnState × List DAction :=
  match s.serial_port with
  | some isOpen =>
    let closeActs : List DAction :=
      if isOpen && closeRaises then
        [.logError "Erreur lors de la fermeture du port série"]
      else []
    (⟨none, false, false, false⟩,
     closeActs ++ stopLoggingActs s.logActive ++
       [.uiLine "[Système] Déconnecté\n", .setButton "Connecter",
        .statusMessage "Déconnecté"])
  | none => (s, [.uiLine "[Système] Aucune connexion active\n"])

/-- The `appendFormattedText` calls among a list of `disconnect` effects. -/
def uiLines (acts : List DAction) : List String :=
  acts.filterMap fun a =>
    match a with
    | .uiLine t => some t
    | _ => none

/-! ## Definitions: display-buffer capping (`Terminal.appendFormattedText`) -/

/-- `MAX_BYTES = 5 * 1024 * 1024` in `appendFormattedText`. -/
def MAX_BYTES : Nat := 5 * 1024 * 1024

/-- `current_text.count('\n')`. -/
def countNl (s : String) : Nat := s.toList.count '\n'

/-- `len(current_text.encode('utf-8'))`. -/
def utf8Len (s : String) : Nat := (utf8Bytes s).length

/-- Python's `text.split('\n')` (on the character list). -/
def splitNlChars : List Char → List (List Char)
  | [] => [[]]
  | c :: rest =>
    if c = '\n' then [] :: splitNlChars rest
    else
      match splitNlChars rest with
      | [] => [[c]]
      | h :: t => (c :: h) :: t

/-- Python's `current_text.split('\n')`. -/
def splitNl (s : String) : List String :=
  (splitNlChars s.toList).map fun l => ⟨l⟩

/-- Python's `'\n'.join(lines)`. -/
def joinNl : List String → String
  | [] => ""
  | [s] => s
  | s :: rest => s ++ "\n" ++ joinNl rest

/-- Python's `xs[i:]` slice: a nonnegative start drops that many from the
front; a negative start keeps the last `-i` elements.  In particular
`xs[-0:]`, i.e. `i = 0`, is the whole list. -/
def pySliceFrom (i : Int) (xs : List String) : List String :=
  if 0 ≤ i then xs.drop i.toNat
  else xs.drop (xs.length - (-i).toNat)

/-- `int(max_lines * 0.8)` (truncation of the product; exact arithmetic
stands in for the float multiply, which agrees on all realistic sizes). -/
def keepLines (maxLines : Int) : Int := 4 * maxLines / 5

/-- The buffer-mutating calls of `appendFormattedText`, in order:
`setPlainText(new_text)`, the purge notice appended by `terminal.append`,
and `insertPlainText(text)` for the incoming text. -/
inductive TAction
  | purgeTo (newText : String)
  | sysPurgeMsg
  | insert (text : String)
deriving DecidableEq

/-- The buffer management of `Terminal.appendFormattedText(text)`:
`maxLines?` is the result of `int(self.bufferSizeInput.text())` (`none` when
that raises `ValueError`, in which case no purging is attempted), `current`
is `self.terminal.toPlainText()`.  When the byte cap or line cap is
exceeded, the text is trimmed to its last `int(max_lines * 0.8)` split
lines and the purge notice appended, before the new text is inserted; the
`elif` branch repeats a condition the `if` already covers and is dead. -/
def appendFormattedText (maxLines? : Option Int) (current incoming : String) :
    List TAction :=
  match maxLines? with
  | none => [.insert incoming]
  | some maxLines =>
    if utf8Len current > MAX_BYTES ∨ (countNl current : Int) > maxLines then
      [.purgeTo (joinNl (pySliceFrom (-(keepLines maxLines)) (splitNl current))),
       .sysPurgeMsg, .insert incoming]
    else if (countNl current : Int) > maxLines then
      [.purgeTo (joinNl (pySliceFrom (-maxLines) (splitNl current))),
       .insert incoming]
    else [.insert incoming]

/-! ## Theorems -/

theorem historyStep_nodup (hist : List String) (text : String)
    (h : hist.Nodup) : (historyStep hist text).Nodup := by
  unfold historyStep
  split
  next => exact h
  next hm =>
    have hnd : (hist ++ [text]).Nodup := by
      simp [List.nodup_append, h, hm]
    split
    next => exact hnd.tail
    next => exact hnd

theorem historyStep_length_le (hist : List String) (text : String)
    (h : hist.length ≤ 100) : (historyStep hist text).length ≤ 100 := by
  unfold historyStep
  split
  next => exact h
  next =>
    split
    next hl =>
      simp only [List.length_tail, List.length_append, List.length_singleton]
      omega
    next hl =>
      simp only [gt_iff_lt, not_lt, List.length_append, List.length_singleton] at hl
      simpa using hl

theorem lastN_tail (n : Nat) (Y : List String) (h : n + 1 ≤ Y.length) :
    lastN n Y.tail = lastN n Y := by
  unfold lastN
  rw [← List.drop_one, List.drop_drop]
  congr 1
  simp only [List.length_drop]
  omega

theorem foldl_historyStep (cmds hist : List String)
    (hnd : (hist ++ cmds).Nodup) (hlen : hist.length ≤ 100) :
    List.foldl historyStep hist cmds = lastN 100 (hist ++ cmds) := by
  induction cmds generalizing hist with
  | nil =>
    simp only [List.foldl_nil, List.append_nil, lastN]
    rw [Nat.sub_eq_zero_of_le hlen, List.drop_zero]
  | cons c cs ih =>
    have hc : c ∉ hist := by
      intro hmem
      exact (List.disjoint_of_nodup_append hnd) hmem (List.mem_cons_self c cs)
    have hstep : historyStep hist c =
        if (hist ++ [c]).length > 100 then (hist ++ [c]).tail
        else hist ++ [c] := by
      unfold historyStep; rw [if_neg hc]
    rw [List.foldl_cons, hstep]
    by_cases hl : (hist ++ [c]).length > 100
    · rw [if_pos hl]
      have hne : hist ≠ [] := by
        intro he; subst he; simp at hl
      have htail : (hist ++ [c]).tail ++ cs = (hist ++ c :: cs).tail := by
        cases hist with
        | nil => exact absurd rfl hne
        | cons a t => simp
      have hnd2 : ((hist ++ [c]).tail ++ cs).Nodup := by
        rw [htail]; exact hnd.tail
      have hlen2 : ((hist ++ [c]).tail).length ≤ 100 := by
        simp only [List.length_tail, List.length_append, List.length_singleton]
        omega
      rw [ih _ hnd2 hlen2, htail, lastN_tail]
      simp only [List.length_append, List.length_cons]
      simp only [List.length_append, List.length_singleton] at hl
      omega
    · rw [if_neg hl]
      have hnd2 : ((hist ++ [c]) ++ cs).Nodup := by
        simpa [List.append_assoc] using hnd
      have hlen2 : (hist ++ [c]).length ≤ 100 := by
        simp only [gt_iff_lt, not_lt, List.length_append, List.length_singleton] at hl
        simpa using hl
      rw [ih _ hnd2 hlen2]
      congr 1
      simp

/-- C7: the command history never contains two equal entries and never
exceeds 100 entries, and any 150 pairwise-distinct commands sent in sequence
leave exactly the most recent 100, oldest evicted first. -/
theorem C7_history_bounded_dedup :
    (∀ hist text, hist.Nodup → hist.length ≤ 100 →
      (historyStep hist text).Nodup ∧ (historyStep hist text).length ≤ 100) ∧
    (∀ cmds : List String, cmds.length = 150 → cmds.Nodup →
      List.foldl historyStep [] cmds = cmds.drop 50) := by
  constructor
  · intro hist text hnd hlen
    exact ⟨historyStep_nodup hist text hnd, historyStep_length_le hist text hlen⟩
  · intro cmds hlen hnd
    have := foldl_historyStep cmds [] (by simpa using hnd) (by simp)
    simpa [lastN, hlen] using this

set_option maxRecDepth 100000 in
/-- Witness for C7 at a concrete history and the concrete 150-command run. -/
theorem C7_history_bounded_dedup_witness :
    ((historyStep ["x"] "y").Nodup ∧ (historyStep ["x"] "y").length ≤ 100) ∧
    List.foldl historyStep [] cmds150 = cmds150.drop 50 :=
  ⟨C7_history_bounded_dedup.1 ["x"] "y" (by decide) (by decide),
   C7_history_bounded_dedup.2 cmds150 (by decide) (by decide)⟩

theorem mem_cleanedHex (text : String) (c : Char) (h : c ∈ cleanedHex text) :
    c ∈ hexDigitSet := by
  unfold cleanedHex at h
  rw [List.mem_filter] at h
  obtain ⟨h1, hns⟩ := h
  rw [List.mem_filter] at h1
  obtain ⟨-, hmem⟩ := h1
  simp only [decide_eq_true_eq] at hmem hns
  simp only [hexFilterSet, List.mem_append, List.mem_singleton] at hmem
  rcases hmem with hm | hm
  · exact hm
  · exact absurd hm hns

theorem hexDigit_spec (c : Char) (h : c ∈ hexDigitSet) :
    ∃ v, hexVal? c = some v ∧ v < 16 ∧ (Nat.digitChar v).toUpper = c := by
  simp only [hexDigitSet, List.mem_cons, List.not_mem_nil, or_false] at h
  rcases h with rfl | rfl | rfl | rfl | rfl | rfl | rfl | rfl | rfl | rfl | rfl | rfl | rfl | rfl | rfl | rfl <;>
    exact ⟨_, rfl, by decide, by decide⟩

theorem bytesFromHex_pairs (cs : List Char)
    (hhex : ∀ c ∈ cs, c ∈ hexDigitSet) (heven : cs.length % 2 = 0) :
    ∃ bs, bytesFromHex cs = some bs ∧ bs.map byte02X = pairStrings cs := by
  induction cs using pairStrings.induct with
  | case1 => exact ⟨[], rfl, rfl⟩
  | case2 a => simp at heven
  | case3 a b rest ih =>
    obtain ⟨va, hva, hva16, hvac⟩ := hexDigit_spec a (hhex a (by simp))
    obtain ⟨vb, hvb, hvb16, hvbc⟩ := hexDigit_spec b (hhex b (by simp))
    obtain ⟨bs, hbs, hmap⟩ := ih
      (fun c hc => hhex c (by simp [hc]))
      (by simp only [List.length_cons] at heven ⊢; omega)
    refine ⟨(16 * va + vb) :: bs, ?_, ?_⟩
    · simp only [bytesFromHex, hva, hvb, hbs]
    · have h1 : (16 * va + vb) / 16 % 16 = va := by omega
      have h2 : (16 * va + vb) % 16 = vb := by omega
      simp only [List.map_cons, pairStrings, byte02X, h1, h2, hvac, hvbc, hmap]

/-- Case analysis of the HEX branch of `_prepare_data_to_send`: error on an
empty cleaned string, pad-and-warn on an odd digit count, plain decode
otherwise. -/
theorem prepareHex_spec (text : String) (eol : List Nat) :
    (cleanedHex text = [] →
      prepare_data_to_send text .hex eol =
        ([], .error "Aucune donnée hexadécimale valide")) ∧
    (cleanedHex text ≠ [] → (cleanedHex text).length % 2 = 1 →
      ∃ bs, bytesFromHex (cleanedHex text ++ ['0']) = some bs ∧
        prepare_data_to_send text .hex eol = ([oddHexWarning], .ok (bs ++ eol))) ∧
    (cleanedHex text ≠ [] → (cleanedHex text).length % 2 = 0 →
      ∃ bs, bytesFromHex (cleanedHex text) = some bs ∧
        prepare_data_to_send text .hex eol = ([], .ok (bs ++ eol))) := by
  refine ⟨?_, ?_, ?_⟩
  · intro he
    simp [prepare_data_to_send, he]
  · intro hne hodd
    have hall : ∀ c ∈ cleanedHex text ++ ['0'], c ∈ hexDigitSet := by
      intro c hc
      rcases List.mem_append.mp hc with hc | hc
      · exact mem_cleanedHex text c hc
      · simp only [List.mem_singleton] at hc
        subst hc; decide
    have heven : (cleanedHex text ++ ['0']).length % 2 = 0 := by
      simp only [List.length_append, List.length_singleton]
      omega
    obtain ⟨bs, hbs, _⟩ := bytesFromHex_pairs _ hall heven
    refine ⟨bs, hbs, ?_⟩
    simp only [prepare_data_to_send, if_neg hne, hodd, hbs]
    norm_num
  · intro hne heven
    have hall : ∀ c ∈ cleanedHex text, c ∈ hexDigitSet := mem_cleanedHex text
    obtain ⟨bs, hbs, _⟩ := bytesFromHex_pairs _ hall heven
    refine ⟨bs, hbs, ?_⟩
    simp only [prepare_data_to_send, if_neg hne, heven, hbs]
    norm_num

/-- C4: in hex send mode the input is cleaned to its hex digits (spaces and
other characters removed); an empty cleaned string raises the encoding error
and nothing is produced; an odd digit count appends a trailing `'0'` with a
visible warning line; otherwise the digit pairs decode to bytes and the EOL
bytes are appended. -/
theorem C4_hex_send_encoding (text : String) (eol : List Nat) :
    (cleanedHex text = [] →
      prepare_data_to_send text .hex eol =
        ([], .error "Aucune donnée hexadécimale valide")) ∧
    (cleanedHex text ≠ [] → (cleanedHex text).length % 2 = 1 →
      ∃ bs, bytesFromHex (cleanedHex text ++ ['0']) = some bs ∧
        prepare_data_to_send text .hex eol = ([oddHexWarning], .ok (bs ++ eol))) ∧
    (cleanedHex text ≠ [] → (cleanedHex text).length % 2 = 0 →
      ∃ bs, bytesFromHex (cleanedHex text) = some bs ∧
        prepare_data_to_send text .hex eol = ([], .ok (bs ++ eol))) :=
  prepareHex_spec text eol

/-- Witness for C4: an odd-length hex input with mixed junk, an empty one,
and an even one, all at EOL `b'\r\n'`. -/
theorem C4_hex_send_encoding_witness :
    (cleanedHex "zz" = [] →
      prepare_data_to_send "zz" .hex [13, 10] =
        ([], .error "Aucune donnée hexadécimale valide")) ∧
    (cleanedHex "a1 2x" ≠ [] → (cleanedHex "a1 2x").length % 2 = 1 →
      ∃ bs, bytesFromHex (cleanedHex "a1 2x" ++ ['0']) = some bs ∧
        prepare_data_to_send "a1 2x" .hex [13, 10] =
          ([oddHexWarning], .ok (bs ++ [13, 10]))) ∧
    (cleanedHex "01 ff" ≠ [] → (cleanedHex "01 ff").length % 2 = 0 →
      ∃ bs, bytesFromHex (cleanedHex "01 ff") = some bs ∧
        prepare_data_to_send "01 ff" .hex [13, 10] = ([], .ok (bs ++ [13, 10]))) :=
  ⟨(C4_hex_send_encoding "zz" [13, 10]).1,
   (C4_hex_send_encoding "a1 2x" [13, 10]).2.1,
   (C4_hex_send_encoding "01 ff" [13, 10]).2.2⟩

/-- C9: encoding a hex string with empty EOL and hex-rendering the resulting
bytes reproduces the cleaned uppercase digits (padded with a trailing `'0'`
when their count was odd), two digits per byte, single spaces between. -/
theorem C9_hex_roundtrip (text : String) (hne : cleanedHex text ≠ []) :
    ∃ bs, (prepare_data_to_send text .hex []).2 = .ok bs ∧
      format_data_as_hex bs = String.intercalate " " (pairStrings (paddedHex text)) := by
  by_cases hodd : (cleanedHex text).length % 2 = 1
  · obtain ⟨bs, hbs, hres⟩ := (prepareHex_spec text []).2.1 hne hodd
    obtain ⟨bs', hbs', hmap⟩ := bytesFromHex_pairs (cleanedHex text ++ ['0'])
      (by
        intro c hc
        rcases List.mem_append.mp hc with hc | hc
        · exact mem_cleanedHex text c hc
        · simp only [List.mem_singleton] at hc; subst hc; decide)
      (by simp only [List.length_append, List.length_singleton]; omega)
    rw [hbs] at hbs'
    obtain rfl : bs = bs' := by injection hbs'
    refine ⟨bs, by simp [hres], ?_⟩
    unfold format_data_as_hex paddedHex
    rw [if_pos hodd, hmap]
  · have heven : (cleanedHex text).length % 2 = 0 := by omega
    obtain ⟨bs, hbs, hres⟩ := (prepareHex_spec text []).2.2 hne heven
    obtain ⟨bs', hbs', hmap⟩ := bytesFromHex_pairs (cleanedHex text)
      (mem_cleanedHex text) heven
    rw [hbs] at hbs'
    obtain rfl : bs = bs' := by injection hbs'
    refine ⟨bs, by simp [hres], ?_⟩
    unfold format_data_as_hex paddedHex
    rw [if_neg hodd, hmap]

/-- Witness for C9 at the odd-length input `"a1b2c"`. -/
theorem C9_hex_roundtrip_witness :
    ∃ bs, (prepare_data_to_send "a1b2c" .hex []).2 = .ok bs ∧
      format_data_as_hex bs =
        String.intercalate " " (pairStrings (paddedHex "a1b2c")) :=
  C9_hex_roundtrip "a1b2c" (by decide)

/-- C1 counterexample: already the FIRST read error — the error count is 1,
far below the threshold of 5 — queues a forced disconnect
(`_handle_serial_error` does so unconditionally); the claim that escalation
happens only upon reaching 5 consecutive errors is false. -/
theorem C1_first_error_already_escalates :
    (readStep (initReadState 0) 0 .readErr).state.errorCount = 1 ∧
    (readStep (initReadState 0) 0 .readErr).state.errorCount < 5 ∧
    RAction.disconnectRequest ∈ (readStep (initReadState 0) 0 .readErr).actions := by
  refine ⟨by decide, by decide, by decide⟩

/-- C1 (amended): every OS-level read error increments the consecutive-error
counter, is reported as a visible `[Erreur]` line, and also queues a forced
disconnect; below the threshold of 5 the loop itself continues, and on
reaching 5 the loop reports the arrest and breaks. -/
theorem C1_read_error_handling (s : ReadState) (now : Nat) :
    (s.errorCount + 1 < 5 →
      readStep s now .readErr =
        { state := { s with errorCount := s.errorCount + 1 },
          actions := [.errorLine "[Erreur] Erreur lors de la lecture des données\n",
                      .disconnectRequest],
          running := true }) ∧
    (5 ≤ s.errorCount + 1 →
      readStep s now .readErr =
        { state := { s with errorCount := s.errorCount + 1 },
          actions := [.errorLine "[Erreur] Arrêt après 5 erreurs consécutives\n",
                      .disconnectRequest],
          running := false }) := by
  constructor
  · intro h
    simp only [readStep, maxErrors, handle_serial_error]
    rw [if_neg (show ¬ s.errorCount + 1 ≥ 5 by omega)]
    rfl
  · intro h
    simp only [readStep, maxErrors, handle_serial_error]
    rw [if_pos (show s.errorCount + 1 ≥ 5 by omega)]
    rfl

/-- Witness for C1 (amended): a first error (count 0 → 1, loop continues)
and a fifth consecutive error (count 4 → 5, loop breaks). -/
theorem C1_read_error_handling_witness :
    readStep ⟨none, [], 0, 0⟩ 7 .readErr =
      { state := ⟨none, [], 0, 1⟩,
        actions := [.errorLine "[Erreur] Erreur lors de la lecture des données\n",
                    .disconnectRequest],
        running := true } ∧
    readStep ⟨none, [], 0, 4⟩ 7 .readErr =
      { state := ⟨none, [], 0, 5⟩,
        actions := [.errorLine "[Erreur] Arrêt après 5 erreurs consécutives\n",
                    .disconnectRequest],
        running := false } :=
  ⟨(C1_read_error_handling ⟨none, [], 0, 0⟩ 7).1 (by decide),
   (C1_read_error_handling ⟨none, [], 0, 4⟩ 7).2 (by decide)⟩

/-- C2 (the code as shipped): `__init__` never creates the `rx_buffer`
attribute, so on the very first read cycle that returns data the append
`self.rx_buffer.extend(data)` raises `AttributeError`; the bytes are
appended nowhere (the temp buffer is untouched, no frame is produced), the
exception is reported as an unexpected-exception line and a disconnect is
queued.  The claimed always-succeeding bounded-ring-buffer append does not
exist in the program. -/
theorem C2_rx_buffer_append_fails :
    (initReadState 0).rx_buffer = none ∧
    readStep (initReadState 0) 0 (.dataAvail [65]) =
      { state := ⟨none, [], 0, 1⟩,
        actions := [.errorLine ("[Erreur] Exception inattendue: "
                      ++ attributeErrorMsg ++ "\n"),
                    .disconnectRequest],
        running := true } := by
  exact ⟨by decide, by decide⟩

/-- C3 (the code as shipped): the framing code of `readData` never runs.
A delimiter-free byte arriving with the 100 ms timeout long elapsed — the
very situation in which the claim requires a flush of the accumulated
content as one frame — instead takes the `AttributeError` path at
`self.rx_buffer.extend(data)`, before `temp_buffer.extend(data)`: no frame
action is emitted, the temp buffer stays empty, and a later idle poll
flushes nothing because there is never anything to flush. -/
theorem C3_framing_unreachable :
    readStep (initReadState 0) 200 (.dataAvail [65]) =
      { state := ⟨none, [], 0, 1⟩,
        actions := [.errorLine ("[Erreur] Exception inattendue: "
                      ++ attributeErrorMsg ++ "\n"),
                    .disconnectRequest],
        running := true } ∧
    readStep ⟨none, [], 0, 1⟩ 400 .noData =
      { state := ⟨none, [], 0, 1⟩, actions := [], running := true } :=
  ⟨by decide, by decide⟩

/-- The replace handler never yields an error from one decode step. -/
theorem utf8Next_replace_ok (b : Nat) (rest : List Nat) :
    ∃ c k, utf8Next false b rest = (.ok c, k) := by
  unfold utf8Next
  repeat' split
  all_goals exact ⟨_, _, rfl⟩

/-- With the replace handler and enough fuel, the decode loop always
returns `.ok`. -/
theorem utf8DecodeFuel_replace_ok (fuel : Nat) (data : List Nat)
    (h : data.length ≤ fuel) :
    ∃ cs, utf8DecodeFuel false fuel data = .ok cs := by
  induction fuel generalizing data with
  | zero =>
    have : data = [] := List.length_eq_zero.mp (Nat.le_zero.mp h)
    subst this
    exact ⟨[], rfl⟩
  | succ n ih =>
    match data with
    | [] => exact ⟨[], rfl⟩
    | b :: rest =>
      obtain ⟨c, k, hck⟩ := utf8Next_replace_ok b rest
      obtain ⟨cs, hcs⟩ := ih (rest.drop k)
        (by simp only [List.length_drop]; simp only [List.length_cons] at h; omega)
      exact ⟨c :: cs, by simp only [utf8DecodeFuel, hck, hcs]⟩

/-- C10: `data.decode('utf-8', errors='replace')` is total — it never
raises — so `_decode_data`'s Latin-1 fallback is unreachable and the
function always returns the UTF-8 replacement decode of its input. -/
theorem C10_utf8_replace_decode_total (data : List Nat) :
    ∃ cs, utf8DecodeReplace data = .ok cs ∧ decode_data data = ⟨cs⟩ := by
  obtain ⟨cs, hcs⟩ := utf8DecodeFuel_replace_ok data.length data le_rfl
  exact ⟨cs, hcs, by simp only [decode_data, utf8DecodeReplace, hcs]⟩

/-- C5: a frame whose rendered text (timestamp included) fails the enabled
filter is neither displayed nor logged (only the byte counter updates); a
pattern on which `re.search` raises `re.error` is fail-open — the frame is
displayed (and logged when logging is on) and no error of any kind is
emitted. -/
theorem C5_display_filter (cfg : RecvConfig)
    (research : String → String → Option Bool) (data : List Nat) :
    (apply_filter cfg.filterEnabled cfg.pattern research (renderedText cfg data)
        = false →
      processReceivedData cfg research data = [.statusUpdate]) ∧
    (research cfg.pattern (renderedText cfg data) = none →
      processReceivedData cfg research data =
        [.statusUpdate, .display (renderedText cfg data)] ++
          (if cfg.logActive then [.logWrite (renderedText cfg data)] else [])) := by
  constructor
  · intro h
    simp only [processReceivedData, h, Bool.not_false, if_true]
  · intro h
    have hf : apply_filter cfg.filterEnabled cfg.pattern research
        (renderedText cfg data) = true := by
      unfold apply_filter
      split
      · rfl
      · rw [h]
    simp [processReceivedData, hf]

/-- Witness for C5: a hex frame suppressed by a matching-nothing filter,
and a hex frame displayed despite (because of) a non-compiling pattern. -/
theorem C5_display_filter_witness :
    processReceivedData ⟨.hex, false, false, false, "", "", true, "ZZ", true⟩
        (fun _ _ => some false) [1, 2] = [.statusUpdate] ∧
    processReceivedData ⟨.hex, false, false, false, "", "", true, "(", true⟩
        (fun _ _ => none) [1, 2] =
      [.statusUpdate,
       .display (renderedText ⟨.hex, false, false, false, "", "", true, "(", true⟩ [1, 2])] ++
        (if (⟨.hex, false, false, false, "", "", true, "(", true⟩ : RecvConfig).logActive then
          [.logWrite (renderedText ⟨.hex, false, false, false, "", "", true, "(", true⟩ [1, 2])]
         else []) :=
  ⟨(C5_display_filter ⟨.hex, false, false, false, "", "", true, "ZZ", true⟩
      (fun _ _ => some false) [1, 2]).1 rfl,
   (C5_display_filter ⟨.hex, false, false, false, "", "", true, "(", true⟩
      (fun _ _ => none) [1, 2]).2 rfl⟩

/-- C6: with an open session, `disconnect()` emits exactly one
"Déconnecté" UI line — preceded by the "Enregistrement terminé" line from
`stopLogging` when a log was active — and nulls the session state, also
when `close()` raises; calling it again emits exactly one
"Aucune connexion active" line and changes nothing else; neither call
propagates an exception (both are total functions here). -/
theorem C6_disconnect_idempotent (s : ConnState) (b c1 c2 : Bool)
    (h : s.serial_port = some b) :
    uiLines (disconnect c1 s).2 =
      (if s.logActive then ["[Système] Enregistrement terminé\n"] else []) ++
        ["[Système] Déconnecté\n"] ∧
    (uiLines (disconnect c1 s).2).count "[Système] Déconnecté\n" = 1 ∧
    (disconnect c1 s).1.serial_port = none ∧
    disconnect c2 (disconnect c1 s).1 =
      ((disconnect c1 s).1,
       [.uiLine "[Système] Aucune connexion active\n"]) := by
  have h1 : disconnect c1 s =
      (⟨none, false, false, false⟩,
       (if b && c1 then [.logError "Erreur lors de la fermeture du port série"]
        else []) ++ stopLoggingActs s.logActive ++
         [.uiLine "[Système] Déconnecté\n", .setButton "Connecter",
          .statusMessage "Déconnecté"]) := by
    unfold disconnect
    rw [h]
  rw [h1]
  refine ⟨?_, ?_, rfl, rfl⟩
  · cases b <;> cases c1 <;> cases hl : s.logActive <;> rfl
  · cases b <;> cases c1 <;> cases hl : s.logActive <;> rfl

/-- Witness for C6: an open session with an active log whose `close()`
raises — the first call shows both the log-termination line and the single
"Déconnecté" line. -/
theorem C6_disconnect_idempotent_witness :
    uiLines (disconnect true ⟨some true, true, true, true⟩).2 =
      ["[Système] Enregistrement terminé\n", "[Système] Déconnecté\n"] ∧
    (uiLines (disconnect true ⟨some true, true, true, true⟩).2).count
      "[Système] Déconnecté\n" = 1 ∧
    (disconnect true ⟨some true, true, true, true⟩).1.serial_port = none ∧
    disconnect false (disconnect true ⟨some true, true, true, true⟩).1 =
      ((disconnect true ⟨some true, true, true, true⟩).1,
       [.uiLine "[Système] Aucune connexion active\n"]) :=
  C6_disconnect_idempotent ⟨some true, true, true, true⟩ true true false rfl

/-- C8 counterexample: with `max_lines = 1` and a three-line buffer the
purge is triggered, but `int(1 * 0.8) = 0` and Python's `lines[-0:]` is the
whole list, so the "purge" keeps the entire buffer — three lines, over
80% of `max_lines` (and over `max_lines` itself), contradicting the claimed
at-or-under-cap guarantee. -/
theorem C8_small_cap_counterexample :
    appendFormattedText (some 1) "a\nb\nc" "x" =
      [.purgeTo "a\nb\nc", .sysPurgeMsg, .insert "x"] ∧
    (countNl "a\nb\nc" : Int) > 1 ∧
    ¬ 5 * (((splitNl "a\nb\nc").length : Int)) ≤ 4 * 1 := by
  refine ⟨by decide, by decide, by decide⟩

/-- C8 (amended): a purge (with its notice) always precedes the insertion
of the new text, never follows it; and whenever `int(max_lines * 0.8) ≥ 1`
a triggered purge leaves at most that many split lines, hence at or under
80% of `max_lines`.  (When `int(max_lines * 0.8) = 0`, i.e.
`max_lines ≤ 1`, the slice `lines[-0:]` keeps the whole buffer.) -/
theorem C8_purge_before_insert (ml? : Option Int) (cur inc : String) :
    (appendFormattedText ml? cur inc = [.insert inc] ∨
      ∃ t, appendFormattedText ml? cur inc =
        [.purgeTo t, .sysPurgeMsg, .insert inc]) ∧
    (∀ ml : Int, ml? = some ml → 1 ≤ keepLines ml →
      (utf8Len cur > MAX_BYTES ∨ (countNl cur : Int) > ml) →
      appendFormattedText ml? cur inc =
        [.purgeTo (joinNl (pySliceFrom (-(keepLines ml)) (splitNl cur))),
         .sysPurgeMsg, .insert inc] ∧
      5 * ((pySliceFrom (-(keepLines ml)) (splitNl cur)).length : Int) ≤ 4 * ml) := by
  constructor
  · cases ml? with
    | none => exact Or.inl rfl
    | some ml =>
      simp only [appendFormattedText]
      by_cases hc : utf8Len cur > MAX_BYTES ∨ (countNl cur : Int) > ml
      · rw [if_pos hc]
        exact Or.inr ⟨_, rfl⟩
      · rw [if_neg hc, if_neg (fun hb => hc (Or.inr hb))]
        exact Or.inl rfl
  · intro ml hml hkeep hcond
    subst hml
    constructor
    · simp only [appendFormattedText]
      rw [if_pos hcond]
    · have hneg : ¬ (0 : Int) ≤ -(keepLines ml) := by omega
      have hlen : (pySliceFrom (-(keepLines ml)) (splitNl cur)).length
          = (splitNl cur).length
            - ((splitNl cur).length - (keepLines ml).toNat) := by
        unfold pySliceFrom
        rw [if_neg hneg, List.length_drop]
        congr 2
        simp
      rw [hlen]
      have h5 : 5 * keepLines ml ≤ 4 * ml := by
        unfold keepLines at hkeep ⊢
        omega
      omega

/-- Witness for C8 (amended): `max_lines = 10` and a twelve-line buffer;
the purge keeps the last `int(10 * 0.8) = 8` lines. -/
theorem C8_purge_before_insert_witness :
    (appendFormattedText (some 10) "a\nb\nc\nd\ne\nf\ng\nh\ni\nj\nk\nl" "x" =
        [.insert "x"] ∨
      ∃ t, appendFormattedText (some 10) "a\nb\nc\nd\ne\nf\ng\nh\ni\nj\nk\nl" "x" =
        [.purgeTo t, .sysPurgeMsg, .insert "x"]) ∧
    (appendFormattedText (some 10) "a\nb\nc\nd\ne\nf\ng\nh\ni\nj\nk\nl" "x" =
      [.purgeTo (joinNl (pySliceFrom (-(keepLines 10))
          (splitNl "a\nb\nc\nd\ne\nf\ng\nh\ni\nj\nk\nl"))),
       .sysPurgeMsg, .insert "x"] ∧
      5 * ((pySliceFrom (-(keepLines 10))
          (splitNl "a\nb\nc\nd\ne\nf\ng\nh\ni\nj\nk\nl")).length : Int) ≤ 4 * 10) :=
  ⟨(C8_purge_before_insert (some 10) "a\nb\nc\nd\ne\nf\ng\nh\ni\nj\nk\nl" "x").1,
   (C8_purge_before_insert (some 10) "a\nb\nc\nd\ne\nf\ng\nh\ni\nj\nk\nl" "x").2
      10 rfl (by decide) (Or.inr (by decide))⟩

end CrazySerialTerm
